import Mathlib

/-!
Shallow embedding of `src/ethcore/wasm2/src/runtime.rs`: the host-function
execution layer of the wasm contract runtime (gas meter, memory bridge,
storage read / return / gas-report host operations, and host-function
dispatch), together with theorems about its specified behaviour.

Modelling conventions:
* `u64` / `u32` machine integers are `Nat`; where the source performs
  unchecked `u64` addition, the model applies `% U64MOD` explicitly
  (release-mode Rust semantics: unchecked `+` wraps modulo 2^64).
* Bytes are `Nat`, byte strings are `List Nat`, the interpreter's linear
  memory is a `List Nat` of its current length; all accesses are
  bounds-checked as in `wasmi`.
* The `&mut vm::Ext` borrow and the `MemoryRef` handle held by the Rust
  `Runtime` struct are modelled as explicit arguments to each operation;
  the owned mutable state (`gas_counter`, `gas_limit`, `result`, ...)
  is the `Runtime` structure, passed and returned explicitly.
* Fallible operations return `Except`/`Option` errors; `panic!` in
  dispatch is a distinguished `DispatchOutcome.fatal`, not an error value.
* `storage_read` additionally returns a trace of the side effects it
  performed, in order, so that effect-ordering claims are statable.
-/

namespace WasmRuntime

/-- Modulus of 64-bit unsigned (`u64`) arithmetic. -/
def U64MOD : Nat := 2 ^ 64

/-- The slice of `vm::Schedule` the runtime uses: the storage-load gas
price `sload_gas`. -/
structure Schedule where
  sload_gas : Nat
  deriving DecidableEq

/-- Model of the `vm::Ext` environment collaborator: `storage_at` returns
`none` on environment failure, and `schedule` is the active fee schedule. -/
structure Ext where
  storage_at : List Nat → Option (List Nat)
  schedule : Schedule

/-- `RuntimeContext` from runtime.rs: immutable per-call identity data. -/
structure RuntimeContext where
  address : List Nat
  sender : List Nat
  origin : List Nat
  code_address : List Nat
  value : Nat
  deriving DecidableEq

/-- The owned state of the `Runtime` struct from runtime.rs
(gas counters, context, call-data `args`, output `result` buffer). -/
structure Runtime where
  gas_counter : Nat
  gas_limit : Nat
  context : RuntimeContext
  args : List Nat
  result : List Nat
  deriving DecidableEq

/-- The `Error` enum from runtime.rs: user trap in native code. -/
inductive Error where
  | StorageReadError
  | StorageUpdateError
  | MemoryAccessViolation
  | Suicide
  | SuicideAbort
  | InvalidGasState
  | BalanceQueryError
  | AllocationFailed
  | GasLimit
  | Unknown
  | BadUtf8
  | Log
  | Other
  | InvalidSyscall
  | Panic (msg : String)
  deriving DecidableEq

/-- The shapes of `wasmi::Error` (interpreter-level faults) that the
conversion in runtime.rs distinguishes: argument/value mismatch, memory
subsystem fault, and everything else. -/
inductive InterpreterError where
  | value
  | memory
  | other
  deriving DecidableEq

/-- The `From<InterpreterError> for Error` conversion in runtime.rs. -/
def Error.from_interpreter : InterpreterError → Error
  | .value => .InvalidSyscall
  | .memory => .MemoryAccessViolation
  | .other => .Other

/-- The interpreter's linear memory, as its current byte contents. -/
abbrev Memory := List Nat

/-- Bounds-checked read of `len` bytes at `ptr` (`wasmi` `MemoryRef::get`
and `get_into`); out-of-range access is a memory-subsystem fault. -/
def mem_get (mem : Memory) (ptr len : Nat) : Except InterpreterError (List Nat) :=
  if ptr + len ≤ mem.length then .ok ((mem.drop ptr).take len)
  else .error .memory

/-- Bounds-checked write of `bytes` at `ptr` (`wasmi` `MemoryRef::set`);
out-of-range access is a memory-subsystem fault. -/
def mem_set (mem : Memory) (ptr : Nat) (bytes : List Nat) : Except InterpreterError Memory :=
  if ptr + bytes.length ≤ mem.length then
    .ok (mem.take ptr ++ bytes ++ mem.drop (ptr + bytes.length))
  else .error .memory

/-- `h256_at` from runtime.rs: reads exactly 32 bytes from linear memory
at `ptr`, converting the interpreter fault via `From<InterpreterError>`. -/
def h256_at (mem : Memory) (ptr : Nat) : Except Error (List Nat) :=
  match mem_get mem ptr 32 with
  | .error e => .error (Error.from_interpreter e)
  | .ok buf => .ok buf

/-- `RuntimeArgs::nth`: fetches the i-th runtime argument; a missing or
mismatched argument is a `wasmi` value fault, converted to `InvalidSyscall`. -/
def nth_arg (args : List Nat) (i : Nat) : Except Error Nat :=
  match args.get? i with
  | some v => .ok v
  | none => .error (Error.from_interpreter .value)

/-- `with_params` from runtime.rs: fresh runtime with `gas_counter = 0`
and an empty result buffer (the environment and memory handle are model
arguments to each operation). -/
def with_params (gas_limit : Nat) (args : List Nat) (context : RuntimeContext) : Runtime :=
  { gas_counter := 0, gas_limit := gas_limit, context := context,
    args := args, result := [] }

/-- `charge_gas` from runtime.rs: the unchecked `u64` sum
`prev + amount` (wrapping modulo 2^64) is compared against `gas_limit`;
on success the counter is set to that sum, on failure nothing changes. -/
def charge_gas (r : Runtime) (amount : Nat) : Bool × Runtime :=
  let prev := r.gas_counter
  if (prev + amount) % U64MOD > r.gas_limit then
    (false, r)
  else
    (true, { r with gas_counter := (prev + amount) % U64MOD })

/-- `charge` from runtime.rs: computes the amount from the fee schedule
via the caller-supplied closure, then calls `charge_gas`; failure is
`GasLimit`. -/
def charge (r : Runtime) (ext : Ext) (f : Schedule → Nat) : Except Error Runtime :=
  let amount := f ext.schedule
  match charge_gas r amount with
  | (false, _) => .error .GasLimit
  | (true, r2) => .ok r2

/-- Side effects performed by a host operation, in order: a key read from
linear memory, an environment storage query, a successful gas charge, a
write into linear memory. -/
inductive Event where
  | keyRead (key_ptr : Nat) (key : List Nat)
  | envRead (key : List Nat)
  | gasCharge (amount : Nat)
  | memWrite (val_ptr : Nat) (bytes : List Nat)
  deriving DecidableEq

/-- `storage_read` from runtime.rs: reads a 32-byte key at `args[0]`,
queries the environment (`StorageReadError` on failure), charges the
schedule's `sload_gas`, then writes the value at `args[1]`. Returns the
error (if any), the resulting runtime state and memory, and the trace of
performed side effects in order. -/
def storage_read (r : Runtime) (ext : Ext) (mem : Memory) (args : List Nat) :
    Option Error × Runtime × Memory × List Event :=
  match nth_arg args 0 with
  | .error e => (some e, r, mem, [])
  | .ok key_ptr =>
    match h256_at mem key_ptr with
    | .error e => (some e, r, mem, [])
    | .ok key =>
      match nth_arg args 1 with
      | .error e => (some e, r, mem, [.keyRead key_ptr key])
      | .ok val_ptr =>
        match ext.storage_at key with
        | none => (some .StorageReadError, r, mem,
            [.keyRead key_ptr key, .envRead key])
        | some val =>
          match charge r ext (fun s => s.sload_gas) with
          | .error e => (some e, r, mem,
              [.keyRead key_ptr key, .envRead key])
          | .ok r2 =>
            match mem_set mem val_ptr val with
            | .error ie => (some (Error.from_interpreter ie), r2, mem,
                [.keyRead key_ptr key, .envRead key,
                 .gasCharge ext.schedule.sload_gas])
            | .ok mem2 => (none, r2, mem2,
                [.keyRead key_ptr key, .envRead key,
                 .gasCharge ext.schedule.sload_gas,
                 .memWrite val_ptr val])

/-- `ret` from runtime.rs: reads `args[1]` bytes at `args[0]` from linear
memory and stores them as the result buffer, replacing its prior content;
a memory fault propagates converted and leaves the runtime unchanged. -/
def ret (r : Runtime) (mem : Memory) (args : List Nat) : Option Error × Runtime :=
  match nth_arg args 0 with
  | .error e => (some e, r)
  | .ok ptr =>
    match nth_arg args 1 with
    | .error e => (some e, r)
    | .ok len =>
      match mem_get mem ptr len with
      | .error ie => (some (Error.from_interpreter ie), r)
      | .ok bytes => (none, { r with result := bytes })

/-- `result` from runtime.rs: read-only view of the result buffer. -/
def result_view (r : Runtime) : List Nat := r.result

/-- `dissolve` from runtime.rs: consumes the runtime, yielding the result
buffer. -/
def dissolve (r : Runtime) : List Nat := r.result

/-- `gas_left` from runtime.rs: `InvalidGasState` when the counter exceeds
the limit, otherwise the remaining gas. -/
def gas_left (r : Runtime) : Except Error Nat :=
  if r.gas_counter > r.gas_limit then .error .InvalidGasState
  else .ok (r.gas_limit - r.gas_counter)

/-- The host-exposed `gas` operation from runtime.rs: charges `args[0]`
units verbatim, `GasLimit` on exhaustion. -/
def gas (r : Runtime) (args : List Nat) : Option Error × Runtime :=
  match nth_arg args 0 with
  | .error e => (some e, r)
  | .ok amount =>
    match charge_gas r amount with
    | (true, r2) => (none, r2)
    | (false, r2) => (some .GasLimit, r2)

/-- Modelled from the spec: the numeric id `STORAGE_READ_FUNC` lives in
`env::ids`, which is not among the given sources; the spec fixes three
registered indices (storage-read, return, gas-report) assigned at
import-resolution time, so three distinct concrete values are chosen. -/
def STORAGE_READ_FUNC : Nat := 0

/-- Modelled from the spec: see `STORAGE_READ_FUNC`. -/
def RET_FUNC : Nat := 1

/-- Modelled from the spec: see `STORAGE_READ_FUNC`. -/
def GAS_FUNC : Nat := 2

/-- Outcome of a dispatch: `fatal` models the `panic!` on an unknown
index (an unrecoverable condition, not an error value), `trap` a
propagated `Error`, `done` the `Ok` return with an optional value. -/
inductive DispatchOutcome where
  | fatal (index : Nat)
  | trap (e : Error)
  | done (value : Option Nat) (r : Runtime) (mem : Memory)
  deriving DecidableEq

/-- `invoke_index` from runtime.rs (`Externals` impl): routes the three
registered indices to `storage_read`, `ret` and `gas`, wrapping success
of these void operations as `Ok(None)`; any other index panics. -/
def invoke_index (r : Runtime) (ext : Ext) (mem : Memory) (index : Nat)
    (args : List Nat) : DispatchOutcome :=
  if index = STORAGE_READ_FUNC then
    match storage_read r ext mem args with
    | (some e, _, _, _) => .trap e
    | (none, r2, mem2, _) => .done none r2 mem2
  else if index = RET_FUNC then
    match ret r mem args with
    | (some e, _) => .trap e
    | (none, r2) => .done none r2 mem
  else if index = GAS_FUNC then
    match gas r args with
    | (some e, _) => .trap e
    | (none, r2) => .done none r2 mem
  else
    .fatal index

/-- One invocation of a runtime operation, for stating properties of
operation sequences. -/
inductive Op where
  | opChargeGas (amount : Nat)
  | opCharge (f : Schedule → Nat)
  | opGas (args : List Nat)
  | opStorageRead (args : List Nat)
  | opRet (args : List Nat)
  | opGasLeft

/-- The runtime/memory state reached after one operation (errors abort
the operation, leaving whatever state the operation had produced). -/
def step (ext : Ext) (s : Runtime × Memory) (op : Op) : Runtime × Memory :=
  match op with
  | .opChargeGas a => ((charge_gas s.1 a).2, s.2)
  | .opCharge f =>
    match charge s.1 ext f with
    | .ok r2 => (r2, s.2)
    | .error _ => s
  | .opGas args => ((gas s.1 args).2, s.2)
  | .opStorageRead args =>
    let out := storage_read s.1 ext s.2 args
    (out.2.1, out.2.2.1)
  | .opRet args => ((ret s.1 s.2 args).2, s.2)
  | .opGasLeft => s

/-- The state after a sequence of runtime operations. -/
def run (ext : Ext) (s : Runtime × Memory) (ops : List Op) : Runtime × Memory :=
  ops.foldl (step ext) s

/-- The gas amount an operation charges (or would charge) against the
counter: the explicit amount for `charge_gas`/`gas`, the priced amount
for `charge`, the schedule's `sload_gas` for `storage_read`, zero for
non-charging operations. -/
def charged_amount (ext : Ext) : Op → Nat
  | .opChargeGas a => a
  | .opCharge f => f ext.schedule
  | .opGas args =>
    match nth_arg args 0 with
    | .ok a => a
    | .error _ => 0
  | .opStorageRead _ => ext.schedule.sload_gas
  | .opRet _ => 0
  | .opGasLeft => 0

/-! Helper values and lemmas shared by the theorems below. -/

/-- A concrete execution context for concrete evaluations. -/
def ctxW : RuntimeContext :=
  { address := [], sender := [], origin := [], code_address := [], value := 0 }

/-- A concrete environment whose storage always yields 32 zero bytes,
with storage-load price 200. -/
def extW : Ext :=
  { storage_at := fun _ => some (List.replicate 32 0),
    schedule := { sload_gas := 200 } }

/-- A concrete environment whose storage always fails. -/
def extF : Ext :=
  { storage_at := fun _ => none, schedule := { sload_gas := 200 } }

/-- Unfolding equation for `charge_gas`. -/
theorem charge_gas_eq (r : Runtime) (a : Nat) :
    charge_gas r a =
      if (r.gas_counter + a) % U64MOD > r.gas_limit then (false, r)
      else (true, { r with gas_counter := (r.gas_counter + a) % U64MOD }) := rfl

/-- The gas limit is never written by `charge_gas`. -/
theorem charge_gas_limit_eq (r : Runtime) (a : Nat) :
    ((charge_gas r a).2).gas_limit = r.gas_limit := by
  rw [charge_gas_eq]
  split <;> rfl

/-- After `charge_gas` the counter is still at most the limit, provided it
was before. -/
theorem charge_gas_counter_le (r : Runtime) (a : Nat)
    (h : r.gas_counter ≤ r.gas_limit) :
    ((charge_gas r a).2).gas_counter ≤ r.gas_limit := by
  rw [charge_gas_eq]
  split <;> simp_all

/-- When the charged addition does not overflow u64, the counter does not
decrease. -/
theorem charge_gas_counter_mono (r : Runtime) (a : Nat)
    (h : r.gas_counter + a < U64MOD) :
    r.gas_counter ≤ ((charge_gas r a).2).gas_counter := by
  rw [charge_gas_eq]
  rw [Nat.mod_eq_of_lt h]
  split <;> simp

/-- The only error `charge` produces is `GasLimit`. -/
theorem charge_error_eq (r : Runtime) (ext : Ext) (f : Schedule → Nat)
    (e : Error) (h : charge r ext f = .error e) : e = .GasLimit := by
  simp only [charge] at h
  split at h <;> simp_all

/-- A successful `charge` is a successful `charge_gas` of the priced
amount. -/
theorem charge_ok_eq (r : Runtime) (ext : Ext) (f : Schedule → Nat)
    (r2 : Runtime) (h : charge r ext f = .ok r2) :
    (charge_gas r (f ext.schedule)).1 = true
    ∧ r2 = (charge_gas r (f ext.schedule)).2 := by
  simp only [charge] at h
  split at h <;> simp_all

/-- The only fault `mem_get` produces is a memory fault. -/
theorem mem_get_error_eq (mem : Memory) (p l : Nat)
    (ie : InterpreterError) (h : mem_get mem p l = .error ie) :
    ie = .memory := by
  unfold mem_get at h
  split at h <;> simp_all

/-- The only error `h256_at` produces is `MemoryAccessViolation`. -/
theorem h256_at_error_eq (mem : Memory) (p : Nat) (e : Error)
    (h : h256_at mem p = .error e) : e = .MemoryAccessViolation := by
  unfold h256_at at h
  split at h
  · rename_i ie heq
    have hm := mem_get_error_eq mem p 32 ie heq
    subst hm
    simp only [Error.from_interpreter, Except.error.injEq] at h
    exact h.symm
  · simp_all

/-- The only error `nth_arg` produces is `InvalidSyscall`. -/
theorem nth_arg_error_eq (args : List Nat) (i : Nat) (e : Error)
    (h : nth_arg args i = .error e) : e = .InvalidSyscall := by
  unfold nth_arg at h
  split at h <;> simp_all [Error.from_interpreter]

/-- The only fault `mem_set` produces is a memory fault. -/
theorem mem_set_error_eq (mem : Memory) (p : Nat) (bs : List Nat)
    (ie : InterpreterError) (h : mem_set mem p bs = .error ie) :
    ie = .memory := by
  unfold mem_set at h
  split at h <;> simp_all

/-! Claims. -/

/-- C1: claimed, `charge_gas` returns true iff `consumed + amount ≤
ceiling` under exact arithmetic, returning false when the 64-bit addition
overflows. The code instead performs an unchecked u64 addition which
wraps: at consumed = 1, ceiling = 1, amount = 2^64 - 1, the exact sum
exceeds the ceiling, yet `charge_gas` returns true and wraps the counter
to 0. -/
theorem charge_gas_overflow_bug :
    1 + (2 ^ 64 - 1) > 1
    ∧ (charge_gas
        { gas_counter := 1, gas_limit := 1, context := ctxW,
          args := [], result := [] } (2 ^ 64 - 1)).1 = true
    ∧ ((charge_gas
        { gas_counter := 1, gas_limit := 1, context := ctxW,
          args := [], result := [] } (2 ^ 64 - 1)).2).gas_counter = 0 := by
  refine ⟨by omega, ?_, ?_⟩ <;> decide

/-- C3 counterexample: at consumed = 2, ceiling = 5, amount = 2^64 - 1,
`charge_gas` returns true but the counter afterwards (1, by wrapping) is
not the prior value plus the amount. -/
theorem charge_gas_exact_increase_cex :
    (charge_gas
      { gas_counter := 2, gas_limit := 5, context := ctxW,
        args := [], result := [] } (2 ^ 64 - 1)).1 = true
    ∧ ¬ ((charge_gas
        { gas_counter := 2, gas_limit := 5, context := ctxW,
          args := [], result := [] } (2 ^ 64 - 1)).2).gas_counter
      = 2 + (2 ^ 64 - 1) := by
  constructor <;> decide

/-- C3 (amended): when the addition `consumed + amount` does not overflow
u64, `charge_gas` succeeds iff `consumed + amount ≤ ceiling` and on
success the counter increases by exactly `amount`; on failure the whole
state is unchanged (no partial charge); charging exactly
`ceiling - consumed` succeeds and brings `gas_left` to 0; charging one
unit more (when `ceiling + 1` still fits in u64) fails and leaves the
state unchanged. -/
theorem charge_gas_exactness (r : Runtime) :
    (∀ amount, r.gas_counter + amount < U64MOD →
      ((charge_gas r amount).1 = true ↔ r.gas_counter + amount ≤ r.gas_limit)
      ∧ ((charge_gas r amount).1 = true →
        ((charge_gas r amount).2).gas_counter = r.gas_counter + amount))
    ∧ (∀ amount, (charge_gas r amount).1 = false → (charge_gas r amount).2 = r)
    ∧ (r.gas_counter ≤ r.gas_limit → r.gas_limit < U64MOD →
      (charge_gas r (r.gas_limit - r.gas_counter)).1 = true
      ∧ gas_left ((charge_gas r (r.gas_limit - r.gas_counter)).2) = .ok 0)
    ∧ (r.gas_counter ≤ r.gas_limit → r.gas_limit + 1 < U64MOD →
      (charge_gas r (r.gas_limit - r.gas_counter + 1)).1 = false
      ∧ (charge_gas r (r.gas_limit - r.gas_counter + 1)).2 = r) := by
  refine ⟨?_, ?_, ?_, ?_⟩
  · intro amount h
    rw [charge_gas_eq, Nat.mod_eq_of_lt h]
    constructor
    · split <;> simp_all
    · split <;> simp_all
  · intro amount
    rw [charge_gas_eq]
    split <;> simp_all
  · intro hle hlt
    have hs : r.gas_counter + (r.gas_limit - r.gas_counter) = r.gas_limit := by
      omega
    rw [charge_gas_eq, hs, Nat.mod_eq_of_lt hlt]
    simp [gas_left]
  · intro hle hlt
    have hs : r.gas_counter + (r.gas_limit - r.gas_counter + 1)
        = r.gas_limit + 1 := by omega
    rw [charge_gas_eq, hs, Nat.mod_eq_of_lt hlt]
    simp

/-- Witness for C3's theorem at a concrete gas state. -/
theorem charge_gas_exactness_witness :
    ((charge_gas (with_params 10 [] ctxW) 4).1 = true
      ∧ ((charge_gas (with_params 10 [] ctxW) 4).2).gas_counter = 0 + 4)
    ∧ ((charge_gas (with_params 10 [] ctxW) 10).1 = true
      ∧ gas_left ((charge_gas (with_params 10 [] ctxW) 10).2) = .ok 0)
    ∧ ((charge_gas (with_params 10 [] ctxW) 11).1 = false
      ∧ (charge_gas (with_params 10 [] ctxW) 11).2 = with_params 10 [] ctxW) := by
  refine ⟨?_, ?_, ?_⟩
  · have h := (charge_gas_exactness (with_params 10 [] ctxW)).1 4 (by decide)
    exact ⟨h.1.mpr (by decide), h.2 (h.1.mpr (by decide))⟩
  · exact (charge_gas_exactness (with_params 10 [] ctxW)).2.2.1
      (by decide) (by decide)
  · exact (charge_gas_exactness (with_params 10 [] ctxW)).2.2.2
      (by decide) (by decide)

/-- C7: `gas_left` returns `ceiling - consumed` exactly when
`consumed ≤ ceiling`, and fails, with `InvalidGasState` exactly, when
`consumed > ceiling`; it takes the state by value and returns only a
number or an error, so it never mutates the gas state. -/
theorem gas_left_spec (r : Runtime) :
    (∀ n, gas_left r = .ok n ↔
      r.gas_counter ≤ r.gas_limit ∧ n = r.gas_limit - r.gas_counter)
    ∧ (∀ e, gas_left r = .error e ↔
      r.gas_limit < r.gas_counter ∧ e = .InvalidGasState) := by
  constructor
  · intro n
    unfold gas_left
    split
    · rename_i hgt
      constructor
      · intro he
        exact Except.noConfusion he
      · rintro ⟨hle, -⟩
        exact absurd hgt (by omega)
    · rename_i hle
      simp only [Except.ok.injEq]
      constructor
      · intro he
        exact ⟨by omega, he.symm⟩
      · rintro ⟨-, he⟩
        exact he.symm
  · intro e
    unfold gas_left
    split
    · rename_i hgt
      simp only [Except.error.injEq]
      constructor
      · intro he
        exact ⟨hgt, he.symm⟩
      · rintro ⟨-, he⟩
        exact he.symm
    · rename_i hle
      constructor
      · intro he
        exact Except.noConfusion he
      · rintro ⟨hlt, -⟩
        exact absurd hlt hle

/-- Witness for C7's theorem at concrete gas states. -/
theorem gas_left_spec_witness :
    gas_left (with_params 7 [] ctxW) = .ok 7
    ∧ gas_left { with_params 7 [] ctxW with gas_counter := 9 }
      = .error .InvalidGasState := by
  constructor
  · exact ((gas_left_spec (with_params 7 [] ctxW)).1 7).mpr
      ⟨by decide, by decide⟩
  · exact ((gas_left_spec { with_params 7 [] ctxW with gas_counter := 9 }).2
      Error.InvalidGasState).mpr ⟨by decide, rfl⟩

/-- The runtime that `storage_read` leaves behind is either the input
runtime or the input runtime after the `sload_gas` charge. -/
theorem storage_read_runtime_cases (r : Runtime) (ext : Ext) (mem : Memory)
    (args : List Nat) :
    (storage_read r ext mem args).2.1 = r
    ∨ (storage_read r ext mem args).2.1
      = (charge_gas r ext.schedule.sload_gas).2 := by
  cases h0 : nth_arg args 0 with
  | error e => simp [storage_read, h0]
  | ok key_ptr =>
    cases h1 : h256_at mem key_ptr with
    | error e => simp [storage_read, h0, h1]
    | ok key =>
      cases h2 : nth_arg args 1 with
      | error e => simp [storage_read, h0, h1, h2]
      | ok val_ptr =>
        cases h3 : ext.storage_at key with
        | none => simp [storage_read, h0, h1, h2, h3]
        | some val =>
          cases h4 : charge r ext (fun s => s.sload_gas) with
          | error e => simp [storage_read, h0, h1, h2, h3, h4]
          | ok r2 =>
            have h6 : r2 = (charge_gas r ext.schedule.sload_gas).2 :=
              (charge_ok_eq _ _ _ _ h4).2
            cases h5 : mem_set mem val_ptr val with
            | error ie => simp [storage_read, h0, h1, h2, h3, h4, h5, h6]
            | ok mem2 => simp [storage_read, h0, h1, h2, h3, h4, h5, h6]

/-- The runtime that the host `gas` operation leaves behind is either the
input runtime or the input runtime after a `charge_gas` of the decoded
amount. -/
theorem gas_runtime_cases (r : Runtime) (args : List Nat) :
    (gas r args).2 = r
    ∨ ∃ a, nth_arg args 0 = .ok a ∧ (gas r args).2 = (charge_gas r a).2 := by
  cases h0 : nth_arg args 0 with
  | error e => simp [gas, h0]
  | ok a =>
    rcases h1 : charge_gas r a with ⟨b, r2⟩
    right
    refine ⟨a, rfl, ?_⟩
    cases b <;> simp [gas, h0, h1]

/-- `ret` never touches the gas state. -/
theorem ret_gas_eq (r : Runtime) (mem : Memory) (args : List Nat) :
    ((ret r mem args).2).gas_counter = r.gas_counter
    ∧ ((ret r mem args).2).gas_limit = r.gas_limit := by
  cases h0 : nth_arg args 0 with
  | error e => simp [ret, h0]
  | ok p =>
    cases h1 : nth_arg args 1 with
    | error e => simp [ret, h0, h1]
    | ok l =>
      cases h2 : mem_get mem p l with
      | error ie => simp [ret, h0, h1, h2]
      | ok bytes => simp [ret, h0, h1, h2]

/-- One operation preserves the gas limit and the counter-below-limit
invariant. -/
theorem step_preserves (ext : Ext) (s : Runtime × Memory) (op : Op)
    (h : s.1.gas_counter ≤ s.1.gas_limit) :
    (step ext s op).1.gas_limit = s.1.gas_limit
    ∧ (step ext s op).1.gas_counter ≤ s.1.gas_limit := by
  cases op with
  | opChargeGas a =>
    exact ⟨charge_gas_limit_eq s.1 a, charge_gas_counter_le s.1 a h⟩
  | opCharge f =>
    cases h4 : charge s.1 ext f with
    | error e => simp [step, h4, h]
    | ok r2 =>
      have h6 : r2 = (charge_gas s.1 (f ext.schedule)).2 :=
        (charge_ok_eq _ _ _ _ h4).2
      simp only [step, h4, h6]
      exact ⟨charge_gas_limit_eq s.1 _, charge_gas_counter_le s.1 _ h⟩
  | opGas args =>
    rcases gas_runtime_cases s.1 args with hc | ⟨a, hnth, hc⟩
    · simp [step, hc, h]
    · simp only [step, hc]
      exact ⟨charge_gas_limit_eq s.1 a, charge_gas_counter_le s.1 a h⟩
  | opStorageRead args =>
    rcases storage_read_runtime_cases s.1 ext s.2 args with hc | hc
    · simp [step, hc, h]
    · simp only [step, hc]
      exact ⟨charge_gas_limit_eq s.1 _, charge_gas_counter_le s.1 _ h⟩
  | opRet args =>
    have := ret_gas_eq s.1 s.2 args
    simp [step, this.1, this.2, h]
  | opGasLeft => exact ⟨rfl, h⟩

/-- Provided the charged addition does not overflow u64, one operation
never decreases the gas counter. -/
theorem step_counter_mono (ext : Ext) (s : Runtime × Memory) (op : Op)
    (h : s.1.gas_counter + charged_amount ext op < U64MOD) :
    s.1.gas_counter ≤ (step ext s op).1.gas_counter := by
  cases op with
  | opChargeGas a => exact charge_gas_counter_mono s.1 a h
  | opCharge f =>
    cases h4 : charge s.1 ext f with
    | error e => simp [step, h4]
    | ok r2 =>
      have h6 : r2 = (charge_gas s.1 (f ext.schedule)).2 :=
        (charge_ok_eq _ _ _ _ h4).2
      simp only [step, h4, h6]
      exact charge_gas_counter_mono s.1 _ h
  | opGas args =>
    rcases gas_runtime_cases s.1 args with hc | ⟨a, hnth, hc⟩
    · simp [step, hc]
    · simp only [charged_amount, hnth] at h
      simp only [step, hc]
      exact charge_gas_counter_mono s.1 a h
  | opStorageRead args =>
    rcases storage_read_runtime_cases s.1 ext s.2 args with hc | hc
    · simp [step, hc]
    · simp only [step, hc]
      exact charge_gas_counter_mono s.1 _ h
  | opRet args =>
    have := ret_gas_eq s.1 s.2 args
    simp [step, this.1]
  | opGasLeft => exact Nat.le_refl _

/-- After any operation sequence, the gas limit is unchanged and the
counter is at most the limit, provided it started that way. -/
theorem run_preserves (ext : Ext) (ops : List Op) (s : Runtime × Memory)
    (h : s.1.gas_counter ≤ s.1.gas_limit) :
    (run ext s ops).1.gas_limit = s.1.gas_limit
    ∧ (run ext s ops).1.gas_counter ≤ s.1.gas_limit := by
  induction ops generalizing s with
  | nil => exact ⟨rfl, h⟩
  | cons op ops ih =>
    have hs := step_preserves ext s op h
    have hrec := ih (step ext s op) (hs.1 ▸ hs.2)
    exact ⟨by rw [show run ext s (op :: ops) = run ext (step ext s op) ops
        from rfl, hrec.1, hs.1],
      by rw [show run ext s (op :: ops) = run ext (step ext s op) ops
        from rfl]; exact hs.1 ▸ hrec.2⟩

/-- C4 counterexample: from a fresh runtime with ceiling 1, charging 1
and then 2^64 - 1 makes the consumed counter decrease (from 1 back to 0,
by wrapping), refuting that the counter never decreases across an
operation. -/
theorem gas_counter_decrease_cex :
    ((run extW (with_params 1 [] ctxW, ([] : Memory))
        [Op.opChargeGas 1, Op.opChargeGas (2 ^ 64 - 1)]).1).gas_counter
      < ((run extW (with_params 1 [] ctxW, ([] : Memory))
        [Op.opChargeGas 1]).1).gas_counter := by
  decide

/-- C4 (amended): starting from a freshly constructed runtime, after
every sequence of runtime operations the ceiling is unchanged and
`consumed ≤ ceiling` holds (in particular whenever the last charge
succeeded); and across any single operation the consumed counter does
not decrease provided the operation's charged amount does not overflow
u64 (without that proviso the unchecked addition can wrap the counter
downwards). -/
theorem runtime_gas_invariant (ext : Ext) (gl : Nat) (cargs : List Nat)
    (ctx : RuntimeContext) (mem0 : Memory) (ops : List Op) :
    (run ext (with_params gl cargs ctx, mem0) ops).1.gas_limit = gl
    ∧ (run ext (with_params gl cargs ctx, mem0) ops).1.gas_counter ≤ gl
    ∧ ∀ s op, s.1.gas_counter + charged_amount ext op < U64MOD →
        s.1.gas_counter ≤ (step ext s op).1.gas_counter := by
  have h0 : (with_params gl cargs ctx, mem0).1.gas_counter
      ≤ (with_params gl cargs ctx, mem0).1.gas_limit := Nat.zero_le _
  have hr := run_preserves ext ops (with_params gl cargs ctx, mem0) h0
  exact ⟨hr.1, hr.2, fun s op h => step_counter_mono ext s op h⟩

/-- Witness for C4's theorem at a concrete sequence and operation. -/
theorem runtime_gas_invariant_witness :
    (run extW (with_params 5 [] ctxW, ([] : Memory))
      [Op.opChargeGas 3]).1.gas_limit = 5
    ∧ (run extW (with_params 5 [] ctxW, ([] : Memory))
      [Op.opChargeGas 3]).1.gas_counter ≤ 5
    ∧ (with_params 5 [] ctxW, ([] : Memory)).1.gas_counter
      ≤ (step extW (with_params 5 [] ctxW, ([] : Memory))
        (Op.opChargeGas 3)).1.gas_counter := by
  have h := runtime_gas_invariant extW 5 [] ctxW [] [Op.opChargeGas 3]
  exact ⟨h.1, h.2.1, h.2.2 (with_params 5 [] ctxW, ([] : Memory))
    (Op.opChargeGas 3) (by decide)⟩

/-- Reading back the written range after a successful `mem_set` yields
exactly the written bytes. -/
theorem mem_get_mem_set (mem : Memory) (p : Nat) (bs : List Nat) (m2 : Memory)
    (h : mem_set mem p bs = .ok m2) : mem_get m2 p bs.length = .ok bs := by
  unfold mem_set at h
  split at h
  · rename_i hb
    simp only [Except.ok.injEq] at h
    subst h
    have hp : p ≤ mem.length := le_trans (Nat.le_add_right p bs.length) hb
    have htk : (mem.take p).length = p := by
      rw [List.length_take]
      omega
    have hlen : (mem.take p ++ bs ++ mem.drop (p + bs.length)).length
        = mem.length := by
      simp [List.length_append, List.length_take, List.length_drop]
      omega
    unfold mem_get
    rw [if_pos (by rw [hlen]; exact hb)]
    congr 1
    rw [List.append_assoc, List.drop_left' htk, List.take_left' rfl]
  · exact Except.noConfusion h

/-- C2: `storage_read` performs its side effects in exactly this order:
key read from memory at `key_ptr`, environment storage query, gas charge
of the schedule's storage-load price, value write to memory at `val_ptr`;
and a call failing with `GasLimit` has still performed the environment
read (the environment query precedes the gas check). -/
theorem storage_read_effect_order (r : Runtime) (ext : Ext) (mem : Memory)
    (key_ptr val_ptr : Nat) :
    ((storage_read r ext mem [key_ptr, val_ptr]).1 = none →
      ∃ key val, ext.storage_at key = some val
        ∧ (storage_read r ext mem [key_ptr, val_ptr]).2.2.2
          = [Event.keyRead key_ptr key, Event.envRead key,
             Event.gasCharge ext.schedule.sload_gas,
             Event.memWrite val_ptr val])
    ∧ ((storage_read r ext mem [key_ptr, val_ptr]).1 = some Error.GasLimit →
      ∃ key, (storage_read r ext mem [key_ptr, val_ptr]).2.2.2
          = [Event.keyRead key_ptr key, Event.envRead key]) := by
  have hn0 : nth_arg [key_ptr, val_ptr] 0 = .ok key_ptr := rfl
  have hn1 : nth_arg [key_ptr, val_ptr] 1 = .ok val_ptr := rfl
  cases h1 : h256_at mem key_ptr with
  | error e =>
    have hm := h256_at_error_eq mem key_ptr e h1
    subst hm
    constructor
    · intro hnone
      simp [storage_read, hn0, h1] at hnone
    · intro hgl
      simp [storage_read, hn0, h1] at hgl
  | ok key =>
    cases h3 : ext.storage_at key with
    | none =>
      constructor
      · intro hnone
        simp [storage_read, hn0, hn1, h1, h3] at hnone
      · intro hgl
        simp [storage_read, hn0, hn1, h1, h3] at hgl
    | some val =>
      cases h4 : charge r ext (fun s => s.sload_gas) with
      | error e =>
        have he := charge_error_eq r ext _ e h4
        subst he
        constructor
        · intro hnone
          simp [storage_read, hn0, hn1, h1, h3, h4] at hnone
        · intro hgl
          exact ⟨key, by simp [storage_read, hn0, hn1, h1, h3, h4]⟩
      | ok r2 =>
        cases h5 : mem_set mem val_ptr val with
        | error ie =>
          have hie := mem_set_error_eq mem val_ptr val ie h5
          subst hie
          constructor
          · intro hnone
            simp [storage_read, hn0, hn1, h1, h3, h4, h5] at hnone
          · intro hgl
            simp [storage_read, hn0, hn1, h1, h3, h4, h5,
              Error.from_interpreter] at hgl
        | ok mem2 =>
          constructor
          · intro hnone
            exact ⟨key, val, h3,
              by simp [storage_read, hn0, hn1, h1, h3, h4, h5]⟩
          · intro hgl
            simp [storage_read, hn0, hn1, h1, h3, h4, h5] at hgl

/-- Witness for C2's theorem: a successful concrete `storage_read` whose
trace is exactly key read, environment read, gas charge, memory write. -/
theorem storage_read_effect_order_witness :
    ∃ key val, extW.storage_at key = some val
      ∧ (storage_read (with_params 1000 [] ctxW) extW
          (List.replicate 96 0) [0, 64]).2.2.2
        = [Event.keyRead 0 key, Event.envRead key,
           Event.gasCharge extW.schedule.sload_gas,
           Event.memWrite 64 val] :=
  (storage_read_effect_order (with_params 1000 [] ctxW) extW
    (List.replicate 96 0) 0 64).1 (by decide)

/-- C5: when the environment lookup inside `storage_read` fails, the call
returns `StorageReadError` with no gas charged and memory untouched; when
it succeeds and the call completes, the bytes at `val_ptr` afterwards are
exactly the bytes the environment returned for the key read at
`key_ptr`. -/
theorem storage_read_env_failure (r : Runtime) (ext : Ext) (mem : Memory)
    (key_ptr val_ptr : Nat) (key : List Nat)
    (hk : h256_at mem key_ptr = .ok key) :
    (ext.storage_at key = none →
      (storage_read r ext mem [key_ptr, val_ptr]).1 = some .StorageReadError
      ∧ (storage_read r ext mem [key_ptr, val_ptr]).2.1 = r
      ∧ (storage_read r ext mem [key_ptr, val_ptr]).2.2.1 = mem)
    ∧ (∀ val, ext.storage_at key = some val →
      (storage_read r ext mem [key_ptr, val_ptr]).1 = none →
      mem_get (storage_read r ext mem [key_ptr, val_ptr]).2.2.1
        val_ptr val.length = .ok val) := by
  have hn0 : nth_arg [key_ptr, val_ptr] 0 = .ok key_ptr := rfl
  have hn1 : nth_arg [key_ptr, val_ptr] 1 = .ok val_ptr := rfl
  constructor
  · intro h3
    refine ⟨?_, ?_, ?_⟩ <;> simp [storage_read, hn0, hn1, hk, h3]
  · intro val hval hnone
    cases h4 : charge r ext (fun s => s.sload_gas) with
    | error e =>
      simp [storage_read, hn0, hn1, hk, hval, h4] at hnone
    | ok r2 =>
      cases h5 : mem_set mem val_ptr val with
      | error ie =>
        simp [storage_read, hn0, hn1, hk, hval, h4, h5] at hnone
      | ok mem2 =>
        have hrt := mem_get_mem_set mem val_ptr val mem2 h5
        simpa [storage_read, hn0, hn1, hk, hval, h4, h5] using hrt

/-- Witness for C5's theorem: a failing environment leaves state
untouched; a succeeding call leaves the returned 32 bytes at `val_ptr`. -/
theorem storage_read_env_failure_witness :
    ((storage_read (with_params 1000 [] ctxW) extF
        (List.replicate 96 0) [0, 64]).1 = some .StorageReadError
      ∧ (storage_read (with_params 1000 [] ctxW) extF
        (List.replicate 96 0) [0, 64]).2.1 = with_params 1000 [] ctxW
      ∧ (storage_read (with_params 1000 [] ctxW) extF
        (List.replicate 96 0) [0, 64]).2.2.1 = List.replicate 96 0)
    ∧ mem_get (storage_read (with_params 1000 [] ctxW) extW
        (List.replicate 96 0) [0, 64]).2.2.1 64 (List.replicate 32 0).length
      = .ok (List.replicate 32 0) := by
  constructor
  · exact (storage_read_env_failure (with_params 1000 [] ctxW) extF
      (List.replicate 96 0) 0 64 (List.replicate 32 0) (by rfl)).1 rfl
  · exact (storage_read_env_failure (with_params 1000 [] ctxW) extW
      (List.replicate 96 0) 0 64 (List.replicate 32 0) (by rfl)).2
      (List.replicate 32 0) rfl (by decide)

/-- C9: when the gas charge inside `storage_read` fails with `GasLimit`,
the memory is not written, the runtime state (result buffer and consumed
counter) is unchanged, and the performed effects are exactly the key read
and the environment read. -/
theorem storage_read_gas_limit_frame (r : Runtime) (ext : Ext) (mem : Memory)
    (key_ptr val_ptr : Nat)
    (h : (storage_read r ext mem [key_ptr, val_ptr]).1 = some Error.GasLimit) :
    (storage_read r ext mem [key_ptr, val_ptr]).2.1 = r
    ∧ (storage_read r ext mem [key_ptr, val_ptr]).2.2.1 = mem
    ∧ ∃ key, h256_at mem key_ptr = .ok key
      ∧ (storage_read r ext mem [key_ptr, val_ptr]).2.2.2
        = [Event.keyRead key_ptr key, Event.envRead key] := by
  have hn0 : nth_arg [key_ptr, val_ptr] 0 = .ok key_ptr := rfl
  have hn1 : nth_arg [key_ptr, val_ptr] 1 = .ok val_ptr := rfl
  cases h1 : h256_at mem key_ptr with
  | error e =>
    have hm := h256_at_error_eq mem key_ptr e h1
    subst hm
    simp [storage_read, hn0, h1] at h
  | ok key =>
    cases h3 : ext.storage_at key with
    | none => simp [storage_read, hn0, hn1, h1, h3] at h
    | some val =>
      cases h4 : charge r ext (fun s => s.sload_gas) with
      | error e =>
        refine ⟨?_, ?_, key, rfl, ?_⟩ <;>
          simp [storage_read, hn0, hn1, h1, h3, h4]
      | ok r2 =>
        cases h5 : mem_set mem val_ptr val with
        | error ie =>
          have hie := mem_set_error_eq mem val_ptr val ie h5
          subst hie
          simp [storage_read, hn0, hn1, h1, h3, h4, h5,
            Error.from_interpreter] at h
        | ok mem2 =>
          simp [storage_read, hn0, hn1, h1, h3, h4, h5] at h

/-- Witness for C9's theorem: ceiling 100 with storage-load price 200
makes the charge fail; state is untouched and only the key and
environment reads happened. -/
theorem storage_read_gas_limit_frame_witness :
    (storage_read (with_params 100 [] ctxW) extW
      (List.replicate 96 0) [0, 64]).2.1 = with_params 100 [] ctxW
    ∧ (storage_read (with_params 100 [] ctxW) extW
      (List.replicate 96 0) [0, 64]).2.2.1 = List.replicate 96 0
    ∧ ∃ key, h256_at (List.replicate 96 0) 0 = .ok key
      ∧ (storage_read (with_params 100 [] ctxW) extW
        (List.replicate 96 0) [0, 64]).2.2.2
        = [Event.keyRead 0 key, Event.envRead key] :=
  storage_read_gas_limit_frame (with_params 100 [] ctxW) extW
    (List.replicate 96 0) 0 64 (by decide)

/-- C6: for an in-bounds range, `ret(ptr, len)` succeeds and stores
exactly the `len` bytes found at `ptr`, so `result` returns them; a
second successful `ret` replaces the stored result entirely and is not an
error. -/
theorem ret_result_last_write (r : Runtime) (mem : Memory)
    (p1 l1 p2 l2 : Nat) (h1 : p1 + l1 ≤ mem.length)
    (h2 : p2 + l2 ≤ mem.length) :
    (ret r mem [p1, l1]).1 = none
    ∧ result_view ((ret r mem [p1, l1]).2) = (mem.drop p1).take l1
    ∧ (ret ((ret r mem [p1, l1]).2) mem [p2, l2]).1 = none
    ∧ result_view ((ret ((ret r mem [p1, l1]).2) mem [p2, l2]).2)
      = (mem.drop p2).take l2 := by
  have ha : nth_arg [p1, l1] 0 = .ok p1 := rfl
  have hb : nth_arg [p1, l1] 1 = .ok l1 := rfl
  have hc : nth_arg [p2, l2] 0 = .ok p2 := rfl
  have hd : nth_arg [p2, l2] 1 = .ok l2 := rfl
  refine ⟨?_, ?_, ?_, ?_⟩ <;>
    simp [ret, result_view, mem_get, ha, hb, hc, hd, h1, h2]

/-- Witness for C6's theorem on a concrete memory. -/
theorem ret_result_last_write_witness :
    (ret (with_params 0 [] ctxW) [1, 2, 3, 4] [0, 2]).1 = none
    ∧ result_view ((ret (with_params 0 [] ctxW) [1, 2, 3, 4] [0, 2]).2)
      = (([1, 2, 3, 4] : Memory).drop 0).take 2
    ∧ (ret ((ret (with_params 0 [] ctxW) [1, 2, 3, 4] [0, 2]).2)
        [1, 2, 3, 4] [1, 3]).1 = none
    ∧ result_view ((ret ((ret (with_params 0 [] ctxW) [1, 2, 3, 4] [0, 2]).2)
        [1, 2, 3, 4] [1, 3]).2) = (([1, 2, 3, 4] : Memory).drop 1).take 3 :=
  ret_result_last_write (with_params 0 [] ctxW) [1, 2, 3, 4] 0 2 1 3
    (by decide) (by decide)

/-- C10: an out-of-bounds `ret` returns `MemoryAccessViolation` and
leaves the runtime, and in particular its result buffer, unchanged, so
`result` and `dissolve` still yield the previously stored bytes. -/
theorem ret_failure_preserves_result (r : Runtime) (mem : Memory)
    (p l : Nat) (h : mem.length < p + l) :
    (ret r mem [p, l]).1 = some Error.MemoryAccessViolation
    ∧ (ret r mem [p, l]).2 = r
    ∧ result_view ((ret r mem [p, l]).2) = r.result
    ∧ dissolve ((ret r mem [p, l]).2) = r.result := by
  have ha : nth_arg [p, l] 0 = .ok p := rfl
  have hb : nth_arg [p, l] 1 = .ok l := rfl
  have hnb : ¬ (p + l ≤ mem.length) := by omega
  refine ⟨?_, ?_, ?_, ?_⟩ <;>
    simp [ret, result_view, dissolve, mem_get, ha, hb, hnb,
      Error.from_interpreter]

/-- Witness for C10's theorem: reading one byte from empty memory fails
and preserves the result buffer. -/
theorem ret_failure_preserves_result_witness :
    (ret (with_params 0 [] ctxW) [] [0, 1]).1
      = some Error.MemoryAccessViolation
    ∧ (ret (with_params 0 [] ctxW) [] [0, 1]).2 = with_params 0 [] ctxW
    ∧ result_view ((ret (with_params 0 [] ctxW) [] [0, 1]).2)
      = (with_params 0 [] ctxW).result
    ∧ dissolve ((ret (with_params 0 [] ctxW) [] [0, 1]).2)
      = (with_params 0 [] ctxW).result :=
  ret_failure_preserves_result (with_params 0 [] ctxW) [] 0 1 (by decide)

/-- C8: dispatch with an index outside the three registered ones is the
fatal outcome (the `panic!`), not an error value; the registered indices
route to `storage_read`, `ret` and `gas` respectively, reporting success
of these void operations as an empty (`none`-valued) result and surfacing
their errors as traps. -/
theorem invoke_index_dispatch (r : Runtime) (ext : Ext) (mem : Memory)
    (args : List Nat) :
    (∀ index, index ≠ STORAGE_READ_FUNC → index ≠ RET_FUNC →
      index ≠ GAS_FUNC → invoke_index r ext mem index args = .fatal index)
    ∧ (∀ e, (storage_read r ext mem args).1 = some e →
      invoke_index r ext mem STORAGE_READ_FUNC args = .trap e)
    ∧ ((storage_read r ext mem args).1 = none →
      invoke_index r ext mem STORAGE_READ_FUNC args
        = .done none (storage_read r ext mem args).2.1
            (storage_read r ext mem args).2.2.1)
    ∧ (∀ e, (ret r mem args).1 = some e →
      invoke_index r ext mem RET_FUNC args = .trap e)
    ∧ ((ret r mem args).1 = none →
      invoke_index r ext mem RET_FUNC args
        = .done none ((ret r mem args).2) mem)
    ∧ (∀ e, (gas r args).1 = some e →
      invoke_index r ext mem GAS_FUNC args = .trap e)
    ∧ ((gas r args).1 = none →
      invoke_index r ext mem GAS_FUNC args
        = .done none ((gas r args).2) mem) := by
  refine ⟨?_, ?_, ?_, ?_, ?_, ?_, ?_⟩
  · intro index hS hR hG
    simp [invoke_index, hS, hR, hG]
  · intro e he
    rcases hsr : storage_read r ext mem args with ⟨oe, r2, m2, tr⟩
    rw [hsr] at he
    simp only at he
    subst he
    simp [invoke_index, hsr]
  · intro he
    rcases hsr : storage_read r ext mem args with ⟨oe, r2, m2, tr⟩
    rw [hsr] at he
    simp only at he
    subst he
    simp [invoke_index, hsr]
  · intro e he
    rcases hrt : ret r mem args with ⟨oe, r2⟩
    rw [hrt] at he
    simp only at he
    subst he
    simp [invoke_index, STORAGE_READ_FUNC, RET_FUNC, hrt]
  · intro he
    rcases hrt : ret r mem args with ⟨oe, r2⟩
    rw [hrt] at he
    simp only at he
    subst he
    simp [invoke_index, STORAGE_READ_FUNC, RET_FUNC, hrt]
  · intro e he
    rcases hg : gas r args with ⟨oe, r2⟩
    rw [hg] at he
    simp only at he
    subst he
    simp [invoke_index, STORAGE_READ_FUNC, RET_FUNC, GAS_FUNC, hg]
  · intro he
    rcases hg : gas r args with ⟨oe, r2⟩
    rw [hg] at he
    simp only at he
    subst he
    simp [invoke_index, STORAGE_READ_FUNC, RET_FUNC, GAS_FUNC, hg]

/-- Witness for C8's theorem: index 5 is fatal; the gas-report index with
a small amount dispatches to a successful void `gas` operation. -/
theorem invoke_index_dispatch_witness :
    invoke_index (with_params 10 [] ctxW) extW [] 5 [] = .fatal 5
    ∧ invoke_index (with_params 10 [] ctxW) extW [] GAS_FUNC [3]
      = .done none ((gas (with_params 10 [] ctxW) [3]).2) [] := by
  constructor
  · exact (invoke_index_dispatch (with_params 10 [] ctxW) extW [] []).1 5
      (by decide) (by decide) (by decide)
  · exact (invoke_index_dispatch (with_params 10 [] ctxW) extW
      [] [3]).2.2.2.2.2.2 (by decide)

end WasmRuntime
